import Mathlib

/-
Verification development for the emoji resizer service (src/src/main.rs).

Shallow embedding conventions:
- Rust byte buffers (Vec<u8>, Bytes, &[u8]) are modelled as List Nat; reads
  that feed arithmetic are taken mod 256, matching the u8 value range.
- Rust strings are modelled as List Char.
- The outbound HTTP fetch, and the image crate's decode/resize/encode
  capabilities, are oracles passed to the handler (they are external
  collaborators per the design document); everything else is translated
  directly from the source.
-/

/-! ## SHA-1 (the sha1 crate's digest, as used by make_etag) -/

def M32 : Nat := 4294967296

def rotl (n x : Nat) : Nat := ((x <<< n) + (x >>> (32 - n))) % M32

def sha1f (i b c d : Nat) : Nat :=
  if i < 20 then (b &&& c) ||| ((b ^^^ 4294967295) &&& d)
  else if i < 40 then b ^^^ c ^^^ d
  else if i < 60 then (b &&& c) ||| (b &&& d) ||| (c &&& d)
  else b ^^^ c ^^^ d

def sha1k (i : Nat) : Nat :=
  if i < 20 then 1518500249
  else if i < 40 then 1859775393
  else if i < 60 then 2400959708
  else 3395469782

def lenBE8 (n : Nat) : List Nat :=
  [n / 72057594037927936 % 256, n / 281474976710656 % 256,
   n / 1099511627776 % 256, n / 4294967296 % 256,
   n / 16777216 % 256, n / 65536 % 256, n / 256 % 256, n % 256]

def sha1pad (msg : List Nat) : List Nat :=
  msg ++ 128 :: List.replicate ((56 + 64 - (msg.length + 1) % 64) % 64) 0
      ++ lenBE8 (8 * msg.length)

def toWords : List Nat → List Nat
  | b0 :: b1 :: b2 :: b3 :: rest =>
      ((b0 % 256) * 16777216 + (b1 % 256) * 65536 + (b2 % 256) * 256 + (b3 % 256))
        :: toWords rest
  | _ => []

def splitBlocks : Nat → List Nat → List (List Nat)
  | 0, _ => []
  | n + 1, ws => ws.take 16 :: splitBlocks n (ws.drop 16)

def H5 : Type := Nat × Nat × Nat × Nat × Nat

def sha1compress (h : H5) (block : List Nat) : H5 :=
  let w := (List.range 64).foldl
    (fun ws _ =>
      ws ++ [rotl 1 (ws.getD (ws.length - 3) 0 ^^^ ws.getD (ws.length - 8) 0
              ^^^ ws.getD (ws.length - 14) 0 ^^^ ws.getD (ws.length - 16) 0)])
    block
  match h with
  | (h0, h1, h2, h3, h4) =>
    match (List.range 80).foldl
        (fun st i =>
          match st with
          | (a, b, c, d, e) =>
            ((rotl 5 a + sha1f i b c d + e + sha1k i + w.getD i 0) % M32,
             a, rotl 30 b, c, d))
        (h0, h1, h2, h3, h4) with
    | (a, b, c, d, e) =>
      ((h0 + a) % M32, (h1 + b) % M32, (h2 + c) % M32, (h3 + d) % M32, (h4 + e) % M32)

def sha1words (msg : List Nat) : H5 :=
  let ws := toWords (sha1pad msg)
  (splitBlocks (ws.length / 16) ws).foldl sha1compress
    (1732584193, 4023233417, 2562383102, 271733878, 3285377520)

def hexDigit (n : Nat) : Char :=
  if n < 10 then Char.ofNat (48 + n) else Char.ofNat (87 + n)

def word2hex (w : Nat) : List Char :=
  (List.range 8).map (fun i => hexDigit (w >>> (28 - 4 * i) % 16))

def sha1hex (msg : List Nat) : List Char :=
  match sha1words msg with
  | (h0, h1, h2, h3, h4) =>
    word2hex h0 ++ word2hex h1 ++ word2hex h2 ++ word2hex h3 ++ word2hex h4

/-- Translation of make_etag: format of the SHA-1 digest as a weak validator. -/
def make_etag (bytes : List Nat) : List Char :=
  "W/\"".toList ++ sha1hex bytes ++ "\"".toList

/-! ## Header utilities (header_matches, with_common_headers, format_src) -/

/-- Rust str::split(sep) semantics on a character list. -/
def splitList (sep : Char) : List Char → List (List Char)
  | [] => [[]]
  | c :: rest =>
    if c = sep then [] :: splitList sep rest
    else
      match splitList sep rest with
      | [] => [[c]]
      | g :: gs => (c :: g) :: gs

/-- Rust str::trim semantics: drop whitespace from both ends. -/
def trimChars (l : List Char) : List Char :=
  ((l.dropWhile Char.isWhitespace).reverse.dropWhile Char.isWhitespace).reverse

/-- Translation of header_matches: the If-None-Match header value (None when
absent or not readable as a string) is split on commas, each part trimmed and
compared to the given value. -/
def header_matches (if_none_match : Option (List Char)) (value : List Char) : Bool :=
  match if_none_match with
  | none => false
  | some s => (splitList ',' s).any (fun t => trimChars t == value)

/-- Translation of with_common_headers. -/
def with_common_headers (etag : List Char) (src : Option (List Char)) :
    List (List Char × List Char) :=
  [("content-type".toList, "image/webp".toList),
   ("cache-control".toList, "public, max-age=86400, stale-while-revalidate=600".toList),
   ("etag".toList, etag),
   ("x-source-url".toList, src.getD "-".toList)]

/-- Translation of format_src. -/
def format_src (name : List Char) : List Char :=
  "https://cdn.discordapp.com/emojis/".toList ++ name ++ "?size=160&animated=true".toList

def headerLookup (n : List Char) : List (List Char × List Char) → Option (List Char)
  | [] => none
  | (k, v) :: rest => if k = n then some v else headerLookup n rest

/-! ## The WebP format sniffer (is_animated_webp) -/

def RIFFbytes : List Nat := [82, 73, 70, 70]
def WEBPbytes : List Nat := [87, 69, 66, 80]
def VP8Xbytes : List Nat := [86, 80, 56, 88]
def ANIMbytes : List Nat := [65, 78, 73, 77]

/-- Chunk-walk loop of is_animated_webp. The source's while loop advances pos
by at least 8 per iteration, so fuel bounds the iteration count; the function
is called with ample fuel (the buffer length). -/
def animWalk (data : List Nat) : Nat → Nat → Bool
  | 0, _ => false
  | fuel + 1, pos =>
    if pos + 8 ≤ data.length then
      let chunk_type := (data.drop pos).take 4
      let chunk_size := data.getD (pos + 4) 0 % 256 + 256 * (data.getD (pos + 5) 0 % 256)
        + 65536 * (data.getD (pos + 6) 0 % 256) + 16777216 * (data.getD (pos + 7) 0 % 256)
      if chunk_type = VP8Xbytes then
        if pos + 8 < data.length then ((data.getD (pos + 8) 0) &&& 2) != 0
        else false
      else if chunk_type = ANIMbytes then true
      else
        animWalk data fuel
          (pos + 8 + chunk_size + (if chunk_size % 2 = 1 then 1 else 0))
    else false

/-- Translation of is_animated_webp. -/
def is_animated_webp (data : List Nat) : Bool :=
  if data.length < 12 then false
  else if ¬(data.take 4 = RIFFbytes ∧ (data.drop 8).take 4 = WEBPbytes) then false
  else animWalk data data.length 12

/-! ## Instrumented sniffer: every byte access goes through a bounds check
that returns none on an out-of-range access, so a some result certifies that
the walk never read out of bounds. -/

def getChecked (data : List Nat) (i : Nat) : Option Nat :=
  if i < data.length then some (data.getD i 0) else none

def sliceChecked (data : List Nat) (lo hi : Nat) : Option (List Nat) :=
  if lo ≤ hi ∧ hi ≤ data.length then some ((data.drop lo).take (hi - lo)) else none

def animWalkChecked (data : List Nat) : Nat → Nat → Option Bool
  | 0, _ => some false
  | fuel + 1, pos =>
    if pos + 8 ≤ data.length then do
      let chunk_type ← sliceChecked data pos (pos + 4)
      let b4 ← getChecked data (pos + 4)
      let b5 ← getChecked data (pos + 5)
      let b6 ← getChecked data (pos + 6)
      let b7 ← getChecked data (pos + 7)
      let chunk_size := b4 % 256 + 256 * (b5 % 256) + 65536 * (b6 % 256)
        + 16777216 * (b7 % 256)
      if chunk_type = VP8Xbytes then
        if pos + 8 < data.length then do
          let flags ← getChecked data (pos + 8)
          some ((flags &&& 2) != 0)
        else some false
      else if chunk_type = ANIMbytes then some true
      else
        animWalkChecked data fuel
          (pos + 8 + chunk_size + (if chunk_size % 2 = 1 then 1 else 0))
    else some false

def is_animated_webpChecked (data : List Nat) : Option Bool :=
  if data.length < 12 then some false
  else do
    let sig ← sliceChecked data 0 4
    let fmt ← sliceChecked data 8 12
    if ¬(sig = RIFFbytes ∧ fmt = WEBPbytes) then some false
    else animWalkChecked data data.length 12

/-! ## The request handler (resize_handler) -/

/-- Identifier extraction from the path segment, as in the handler:
name.split on the dot character, first piece, whole name as fallback. -/
def extract_emoji_id (name : List Char) : List Char :=
  (splitList '.' name).headD name

structure UpstreamResponse where
  status : Nat
  bytesResult : Option (List Nat)
deriving DecidableEq

/-- Outcome of the outbound HTTP send: transport error, or a response. -/
inductive FetchResult where
  | err : FetchResult
  | ok : UpstreamResponse → FetchResult
deriving DecidableEq

/-- http StatusCode::is_success. -/
def statusIsSuccess (s : Nat) : Bool := 200 ≤ s && s < 300

inductive FilterType where
  | Lanczos3 : FilterType
deriving DecidableEq

/-- The image codec capability used by the handler: decode, resize, encode.
An external collaborator, so modelled as an oracle record. -/
structure ImageOps (Img : Type) where
  load_from_memory : List Nat → Option Img
  resize : Img → Nat → Nat → FilterType → Img
  write_to_webp : Img → Option (List Nat)

inductive ResponseBody where
  | bytes : List Nat → ResponseBody
  | text : List Char → ResponseBody
  | empty : ResponseBody
deriving DecidableEq

structure Response where
  status : Nat
  headers : List (List Char × List Char)
  body : ResponseBody
deriving DecidableEq

structure AppState where
  cache : List (List Char × List Nat)
deriving DecidableEq

def cacheGet : List (List Char × List Nat) → List Char → Option (List Nat)
  | [], _ => none
  | (k, v) :: rest, key => if k = key then some v else cacheGet rest key

def cacheInsert (c : List (List Char × List Nat)) (k : List Char) (v : List Nat) :
    List (List Char × List Nat) :=
  (k, v) :: c.filter (fun p => p.1 ≠ k)

/-- Translation of resize_handler. The outbound fetch result and the image
codec are supplied as oracles; the returned pair is the HTTP response and the
application state after the request (the cache may have gained an entry). -/
def resize_handler {Img : Type} (ops : ImageOps Img) (fetch : FetchResult)
    (state : AppState) (name : List Char) (if_none_match : Option (List Char)) :
    Response × AppState :=
  let emoji_id := extract_emoji_id name
  let key := emoji_id
  match cacheGet state.cache key with
  | some bytes =>
    let etag := make_etag bytes
    if header_matches if_none_match etag then
      (⟨304, with_common_headers etag none, ResponseBody.empty⟩, state)
    else
      (⟨200, with_common_headers etag (some (format_src emoji_id)),
        ResponseBody.bytes bytes⟩, state)
  | none =>
    match fetch with
    | FetchResult.err =>
      (⟨502, [], ResponseBody.text "upstream fetch failed".toList⟩, state)
    | FetchResult.ok resp =>
      if resp.status = 404 then
        (⟨404, [], ResponseBody.text "emoji not found".toList⟩, state)
      else if ¬ statusIsSuccess resp.status then
        (⟨502, [], ResponseBody.text "upstream error".toList⟩, state)
      else
        match resp.bytesResult with
        | none => (⟨502, [], ResponseBody.text "upstream read failed".toList⟩, state)
        | some body =>
          if is_animated_webp body then
            let bytes := body
            let state2 := AppState.mk (cacheInsert state.cache key bytes)
            let etag := make_etag bytes
            (⟨200, with_common_headers etag (some (format_src emoji_id)),
              ResponseBody.bytes bytes⟩, state2)
          else
            match ops.load_from_memory body with
            | none => (⟨415, [], ResponseBody.text "decode failed".toList⟩, state)
            | some img =>
              let resized := ops.resize img 160 160 FilterType.Lanczos3
              match ops.write_to_webp resized with
              | none => (⟨500, [], ResponseBody.text "encode failed".toList⟩, state)
              | some out =>
                let bytes := out
                let state2 := AppState.mk (cacheInsert state.cache key bytes)
                let etag := make_etag bytes
                (⟨200, with_common_headers etag (some (format_src emoji_id)),
                  ResponseBody.bytes bytes⟩, state2)


/-! ## Well-formed container model for stating sniffer properties -/

structure Chunk where
  ctype : List Nat
  payload : List Nat
deriving DecidableEq

def sizeBytes (n : Nat) : List Nat :=
  [n % 256, n / 256 % 256, n / 65536 % 256, n / 16777216 % 256]

def encodeChunk (c : Chunk) : List Nat :=
  c.ctype ++ sizeBytes c.payload.length ++ c.payload ++
    (if c.payload.length % 2 = 1 then [0] else [])

def encodeChunks : List Chunk → List Nat
  | [] => []
  | c :: cs => encodeChunk c ++ encodeChunks cs

def webpContainer (cs : List Chunk) : List Nat :=
  82 :: 73 :: 70 :: 70 :: 0 :: 0 :: 0 :: 0 :: 87 :: 69 :: 66 :: 80 :: encodeChunks cs

abbrev wfSkipChunk (d : Chunk) : Prop :=
  d.ctype.length = 4 ∧ d.ctype ≠ VP8Xbytes ∧ d.ctype ≠ ANIMbytes ∧
    d.payload.length < 4294967296

/-! ## Demonstration constants used by witnesses and counterexamples -/

def animDemoBytes : List Nat :=
  RIFFbytes ++ [0, 0, 0, 0] ++ WEBPbytes ++ VP8Xbytes ++ [1, 0, 0, 0] ++ [2]

def unitOps : ImageOps Unit :=
  ⟨fun _ => none, fun i _ _ _ => i, fun _ => none⟩

def vp8xStaticChunk : Chunk := ⟨VP8Xbytes, [0, 0, 0, 0, 0, 0, 0, 0, 0, 0]⟩

def animChunk : Chunk := ⟨ANIMbytes, [0, 0, 0, 0, 0, 0]⟩

lemma getD_drop_eq (data : List Nat) (pos i : Nat) :
    data.getD (pos + i) 0 = (data.drop pos).getD i 0 := by
  simp [List.getD_eq_getElem?_getD, List.getElem?_drop]

lemma encodeChunk_length (d : Chunk) (hc4 : d.ctype.length = 4) :
    (encodeChunk d).length =
      8 + d.payload.length + (if d.payload.length % 2 = 1 then 1 else 0) := by
  simp [encodeChunk, hc4, sizeBytes]
  split <;> simp <;> omega

lemma animWalk_skip (data : List Nat) (fuel pos : Nat) (d : Chunk) (suffix : List Nat)
    (hdrop : data.drop pos = encodeChunk d ++ suffix) (hwf : wfSkipChunk d) :
    animWalk data (fuel + 1) pos = animWalk data fuel (pos + (encodeChunk d).length) ∧
    data.drop (pos + (encodeChunk d).length) = suffix := by
  obtain ⟨hc4, hnv, hna, hplt⟩ := hwf
  have henc : encodeChunk d = d.ctype ++ (sizeBytes d.payload.length ++
      (d.payload ++ (if d.payload.length % 2 = 1 then [0] else []))) := by
    simp [encodeChunk, List.append_assoc]
  have hlen := encodeChunk_length d hc4
  have hpad : (if d.payload.length % 2 = 1 then 1 else 0) ≤ 1 := by split <;> omega
  have h8 : 8 ≤ (encodeChunk d).length := by omega
  have hdlen : data.length = pos + (encodeChunk d).length + suffix.length := by
    have h1 := congrArg List.length hdrop
    simp only [List.length_drop, List.length_append] at h1
    omega
  have hguard : pos + 8 ≤ data.length := by omega
  have htype : (data.drop pos).take 4 = d.ctype := by
    rw [hdrop, henc, List.append_assoc]
    rw [show (4 : Nat) = d.ctype.length from hc4.symm, List.take_left]
  have hsz : ∀ j, j < 4 → data.getD (pos + 4 + j) 0 = (sizeBytes d.payload.length).getD j 0 := by
    intro j hj
    have hidx : pos + 4 + j = pos + (4 + j) := by omega
    rw [hidx, getD_drop_eq, hdrop, henc, List.append_assoc]
    rw [List.getD_append_right _ _ _ _ (by omega)]
    rw [List.append_assoc]
    rw [List.getD_append _ _ _ _ (by simp [sizeBytes]; omega)]
    have hj2 : 4 + j - d.ctype.length = j := by omega
    rw [hj2]
  have h0 := hsz 0 (by omega)
  have h1 := hsz 1 (by omega)
  have h2 := hsz 2 (by omega)
  have h3 := hsz 3 (by omega)
  simp only [show pos + 4 + 0 = pos + 4 from by omega, sizeBytes] at h0
  simp only [show pos + 4 + 1 = pos + 5 from by omega, sizeBytes] at h1
  simp only [show pos + 4 + 2 = pos + 6 from by omega, sizeBytes] at h2
  simp only [show pos + 4 + 3 = pos + 7 from by omega, sizeBytes] at h3
  simp only [List.getD_cons_zero, List.getD_cons_succ] at h0 h1 h2 h3
  have hsize : data.getD (pos + 4) 0 % 256 + 256 * (data.getD (pos + 5) 0 % 256)
      + 65536 * (data.getD (pos + 6) 0 % 256)
      + 16777216 * (data.getD (pos + 7) 0 % 256) = d.payload.length := by
    rw [h0, h1, h2, h3]
    omega
  constructor
  · simp only [animWalk, if_pos hguard, htype, hsize]
    rw [if_neg hnv, if_neg hna]
    congr 1
    omega
  · rw [← List.drop_drop, hdrop]
    exact List.drop_left _ _

lemma animWalk_at_anim (data : List Nat) (fuel pos : Nat) (c : Chunk) (suffix : List Nat)
    (hdrop : data.drop pos = encodeChunk c ++ suffix) (hc : c.ctype = ANIMbytes) :
    animWalk data (fuel + 1) pos = true := by
  have hc4 : c.ctype.length = 4 := by rw [hc]; rfl
  have henc : encodeChunk c = c.ctype ++ (sizeBytes c.payload.length ++
      (c.payload ++ (if c.payload.length % 2 = 1 then [0] else []))) := by
    simp [encodeChunk, List.append_assoc]
  have hlen := encodeChunk_length c hc4
  have hpad : (if c.payload.length % 2 = 1 then 1 else 0) ≤ 1 := by split <;> omega
  have hdlen : data.length = pos + (encodeChunk c).length + suffix.length := by
    have h1 := congrArg List.length hdrop
    simp only [List.length_drop, List.length_append] at h1
    omega
  have hguard : pos + 8 ≤ data.length := by omega
  have htype : (data.drop pos).take 4 = c.ctype := by
    rw [hdrop, henc, List.append_assoc]
    rw [show (4 : Nat) = c.ctype.length from hc4.symm, List.take_left]
  have hne : c.ctype ≠ VP8Xbytes := by rw [hc]; decide
  simp only [animWalk, if_pos hguard, htype]
  rw [if_neg hne, if_pos hc]

lemma animWalk_at_vp8x (data : List Nat) (fuel pos : Nat) (c : Chunk) (suffix : List Nat)
    (hdrop : data.drop pos = encodeChunk c ++ suffix) (hc : c.ctype = VP8Xbytes)
    (hp : c.payload ≠ []) :
    animWalk data (fuel + 1) pos = (((c.payload.getD 0 0) &&& 2) != 0) := by
  have hc4 : c.ctype.length = 4 := by rw [hc]; rfl
  have henc : encodeChunk c = c.ctype ++ (sizeBytes c.payload.length ++
      (c.payload ++ (if c.payload.length % 2 = 1 then [0] else []))) := by
    simp [encodeChunk, List.append_assoc]
  have hlen := encodeChunk_length c hc4
  have hpad : (if c.payload.length % 2 = 1 then 1 else 0) ≤ 1 := by split <;> omega
  have hp1 : 1 ≤ c.payload.length := by
    cases hq : c.payload with
    | nil => exact absurd hq hp
    | cons a l => simp [hq]
  have hdlen : data.length = pos + (encodeChunk c).length + suffix.length := by
    have h1 := congrArg List.length hdrop
    simp only [List.length_drop, List.length_append] at h1
    omega
  have hguard : pos + 8 ≤ data.length := by omega
  have hguard2 : pos + 8 < data.length := by omega
  have htype : (data.drop pos).take 4 = c.ctype := by
    rw [hdrop, henc, List.append_assoc]
    rw [show (4 : Nat) = c.ctype.length from hc4.symm, List.take_left]
  have hflags : data.getD (pos + 8) 0 = c.payload.getD 0 0 := by
    have hidx : pos + 8 = pos + (8 + 0) := by omega
    rw [hidx, getD_drop_eq, hdrop, henc, List.append_assoc]
    rw [List.getD_append_right _ _ _ _ (by omega)]
    rw [List.append_assoc]
    rw [List.getD_append_right _ _ _ _ (by simp [sizeBytes]; omega)]
    rw [List.getD_append _ _ _ _ (by simp [sizeBytes]; omega)]
    have hidx2 : 8 + 0 - c.ctype.length - (sizeBytes c.payload.length).length = 0 := by
      simp [sizeBytes]
      omega
    rw [hidx2]
    rw [List.getD_append _ _ _ _ (by omega)]
  simp only [animWalk, if_pos hguard, htype]
  rw [if_pos hc, if_pos hguard2, hflags]

lemma encodeChunks_append (xs ys : List Chunk) :
    encodeChunks (xs ++ ys) = encodeChunks xs ++ encodeChunks ys := by
  induction xs with
  | nil => simp [encodeChunks]
  | cons c cs ih => simp [encodeChunks, ih]

lemma encodeChunks_length_ge (cs : List Chunk)
    (h : ∀ d ∈ cs, d.ctype.length = 4) :
    8 * cs.length ≤ (encodeChunks cs).length := by
  induction cs with
  | nil => simp [encodeChunks]
  | cons c rest ih =>
    have hc4 : c.ctype.length = 4 := h c (by simp)
    have hlen := encodeChunk_length c hc4
    have := ih (fun d hd => h d (by simp [hd]))
    simp only [encodeChunks, List.length_append, List.length_cons]
    omega

lemma animWalk_chunks (pre : List Chunk) :
    ∀ (data : List Nat) (pos fuel : Nat) (tail : List Nat),
    data.drop pos = encodeChunks pre ++ tail →
    (∀ d ∈ pre, wfSkipChunk d) →
    animWalk data (fuel + pre.length) pos =
      animWalk data fuel (pos + (encodeChunks pre).length) ∧
    data.drop (pos + (encodeChunks pre).length) = tail := by
  induction pre with
  | nil =>
    intro data pos fuel tail hdrop _
    refine ⟨?_, ?_⟩ <;> simp [encodeChunks, hdrop]
  | cons d pre2 ih =>
    intro data pos fuel tail hdrop hwf
    have hd : wfSkipChunk d := hwf d (by simp)
    have hdrop2 : data.drop pos = encodeChunk d ++ (encodeChunks pre2 ++ tail) := by
      rw [hdrop]
      simp [encodeChunks, List.append_assoc]
    obtain ⟨hstep, hrest⟩ :=
      animWalk_skip data (fuel + pre2.length) pos d (encodeChunks pre2 ++ tail) hdrop2 hd
    obtain ⟨hwalk, hdone⟩ := ih data (pos + (encodeChunk d).length) fuel tail hrest
      (fun x hx => hwf x (by simp [hx]))
    constructor
    · calc animWalk data (fuel + (d :: pre2).length) pos
          = animWalk data (fuel + pre2.length + 1) pos := by
            have h : fuel + (d :: pre2).length = fuel + pre2.length + 1 := by
              simp only [List.length_cons]
              omega
            rw [h]
        _ = animWalk data (fuel + pre2.length) (pos + (encodeChunk d).length) := hstep
        _ = animWalk data fuel (pos + (encodeChunk d).length + (encodeChunks pre2).length) := hwalk
        _ = animWalk data fuel (pos + (encodeChunks (d :: pre2)).length) := by
            have h : pos + (encodeChunks (d :: pre2)).length =
                pos + (encodeChunk d).length + (encodeChunks pre2).length := by
              simp only [encodeChunks, List.length_append]
              omega
            rw [h]
    · calc data.drop (pos + (encodeChunks (d :: pre2)).length)
          = data.drop (pos + (encodeChunk d).length + (encodeChunks pre2).length) := by
            have h : pos + (encodeChunks (d :: pre2)).length =
                pos + (encodeChunk d).length + (encodeChunks pre2).length := by
              simp only [encodeChunks, List.length_append]
              omega
            rw [h]
        _ = tail := hdone

lemma webpContainer_length (cs : List Chunk) :
    (webpContainer cs).length = 12 + (encodeChunks cs).length := by
  simp [webpContainer]
  omega

lemma webpContainer_walk (cs : List Chunk) :
    is_animated_webp (webpContainer cs) =
      animWalk (webpContainer cs) (webpContainer cs).length 12 := by
  have hlen := webpContainer_length cs
  rw [is_animated_webp, if_neg (by omega)]
  have hsig : (webpContainer cs).take 4 = RIFFbytes := rfl
  have hfmt : ((webpContainer cs).drop 8).take 4 = WEBPbytes := rfl
  rw [if_neg (by simp [hsig, hfmt, RIFFbytes, WEBPbytes])]

lemma container_reaches (pre : List Chunk) (c : Chunk) (rest : List Chunk)
    (hpre : ∀ d ∈ pre, wfSkipChunk d) :
    ∃ fuel pos suffix,
      is_animated_webp (webpContainer (pre ++ c :: rest)) =
        animWalk (webpContainer (pre ++ c :: rest)) (fuel + 1) pos ∧
      (webpContainer (pre ++ c :: rest)).drop pos = encodeChunk c ++ suffix := by
  have hlen := webpContainer_length (pre ++ c :: rest)
  have hdrop12 : (webpContainer (pre ++ c :: rest)).drop 12 =
      encodeChunks pre ++ (encodeChunk c ++ encodeChunks rest) := by
    have h : (webpContainer (pre ++ c :: rest)).drop 12 =
        encodeChunks (pre ++ c :: rest) := rfl
    rw [h, encodeChunks_append]
    rfl
  have hge : 8 * pre.length ≤ (encodeChunks pre).length :=
    encodeChunks_length_ge pre (fun d hd => (hpre d hd).1)
  have hlenapp : (encodeChunks (pre ++ c :: rest)).length =
      (encodeChunks pre).length + (encodeChunk c ++ encodeChunks rest).length := by
    rw [encodeChunks_append]
    simp [encodeChunks]
  have hLge : pre.length + 1 ≤ (webpContainer (pre ++ c :: rest)).length := by omega
  obtain ⟨hwalk, hdone⟩ := animWalk_chunks pre (webpContainer (pre ++ c :: rest)) 12
    ((webpContainer (pre ++ c :: rest)).length - pre.length)
    (encodeChunk c ++ encodeChunks rest) hdrop12 hpre
  refine ⟨(webpContainer (pre ++ c :: rest)).length - pre.length - 1,
    12 + (encodeChunks pre).length, encodeChunks rest, ?_, hdone⟩
  rw [webpContainer_walk]
  have hfl : (webpContainer (pre ++ c :: rest)).length =
      (webpContainer (pre ++ c :: rest)).length - pre.length + pre.length := by omega
  have hfl2 : (webpContainer (pre ++ c :: rest)).length - pre.length =
      (webpContainer (pre ++ c :: rest)).length - pre.length - 1 + 1 := by omega
  calc animWalk (webpContainer (pre ++ c :: rest))
        (webpContainer (pre ++ c :: rest)).length 12
      = animWalk (webpContainer (pre ++ c :: rest))
          ((webpContainer (pre ++ c :: rest)).length - pre.length + pre.length) 12 := by
        rw [← hfl]
    _ = animWalk (webpContainer (pre ++ c :: rest))
          ((webpContainer (pre ++ c :: rest)).length - pre.length)
          (12 + (encodeChunks pre).length) := hwalk
    _ = animWalk (webpContainer (pre ++ c :: rest))
          ((webpContainer (pre ++ c :: rest)).length - pre.length - 1 + 1)
          (12 + (encodeChunks pre).length) := by rw [← hfl2]

lemma animWalk_fuel_irrel (data : List Nat) :
    ∀ f1 f2 pos, data.length ≤ 8 * f1 + pos → data.length ≤ 8 * f2 + pos →
      animWalk data f1 pos = animWalk data f2 pos := by
  intro f1
  induction f1 with
  | zero =>
    intro f2 pos h1 h2
    cases f2 with
    | zero => rfl
    | succ g => simp only [animWalk]; rw [if_neg (by omega)]
  | succ a ih =>
    intro f2 pos h1 h2
    cases f2 with
    | zero => simp only [animWalk]; rw [if_neg (by omega)]
    | succ b =>
      simp only [animWalk]
      by_cases hg : pos + 8 ≤ data.length
      · rw [if_pos hg, if_pos hg]
        split_ifs <;> first
          | rfl
          | exact ih b _ (by omega) (by omega)
      · rw [if_neg hg, if_neg hg]

lemma animWalkChecked_eq (data : List Nat) :
    ∀ fuel pos, animWalkChecked data fuel pos = some (animWalk data fuel pos) := by
  intro fuel
  induction fuel with
  | zero => intro pos; rfl
  | succ f ih =>
    intro pos
    simp only [animWalkChecked, animWalk]
    by_cases hg : pos + 8 ≤ data.length
    · rw [if_pos hg, if_pos hg]
      have hslice : sliceChecked data pos (pos + 4) = some ((data.drop pos).take 4) := by
        rw [sliceChecked, if_pos ⟨by omega, by omega⟩]
        have h4 : pos + 4 - pos = 4 := by omega
        rw [h4]
      have hb4 : getChecked data (pos + 4) = some (data.getD (pos + 4) 0) := by
        rw [getChecked, if_pos (by omega)]
      have hb5 : getChecked data (pos + 5) = some (data.getD (pos + 5) 0) := by
        rw [getChecked, if_pos (by omega)]
      have hb6 : getChecked data (pos + 6) = some (data.getD (pos + 6) 0) := by
        rw [getChecked, if_pos (by omega)]
      have hb7 : getChecked data (pos + 7) = some (data.getD (pos + 7) 0) := by
        rw [getChecked, if_pos (by omega)]
      rw [hslice, hb4, hb5, hb6, hb7]
      simp only [Option.bind_eq_bind, Option.some_bind]
      split_ifs <;> first
        | (rw [getChecked, if_pos (by omega)]; simp only [Option.some_bind])
        | rfl
        | exact ih _
    · rw [if_neg hg, if_neg hg]

lemma is_animated_webpChecked_eq (data : List Nat) :
    is_animated_webpChecked data = some (is_animated_webp data) := by
  rw [is_animated_webpChecked, is_animated_webp]
  by_cases h12 : data.length < 12
  · rw [if_pos h12, if_pos h12]
  · rw [if_neg h12, if_neg h12]
    have hs : sliceChecked data 0 4 = some (data.take 4) := by
      rw [sliceChecked, if_pos ⟨by omega, by omega⟩]
      simp
    have hf : sliceChecked data 8 12 = some ((data.drop 8).take 4) := by
      rw [sliceChecked, if_pos ⟨by omega, by omega⟩]
    rw [hs, hf]
    simp only [Option.bind_eq_bind, Option.some_bind]
    split_ifs <;> first
      | rfl
      | exact animWalkChecked_eq data data.length 12

lemma splitList_ne_nil (sep : Char) (l : List Char) : splitList sep l ≠ [] := by
  induction l with
  | nil => simp [splitList]
  | cons c rest ih =>
    rw [splitList]
    split_ifs
    · simp
    · cases h : splitList sep rest with
      | nil => exact absurd h ih
      | cons g gs => simp

lemma splitList_headD (sep : Char) (l : List Char) :
    (splitList sep l).headD l = l.takeWhile (fun c => c != sep) := by
  induction l with
  | nil => rfl
  | cons c rest ih =>
    rw [splitList]
    by_cases hc : c = sep
    · rw [if_pos hc]
      subst hc
      simp [List.takeWhile_cons]
    · rw [if_neg hc]
      cases h : splitList sep rest with
      | nil => exact absurd h (splitList_ne_nil sep rest)
      | cons g gs =>
        have hg : g = rest.takeWhile (fun c => c != sep) := by
          rw [← ih, h]
          rfl
        simp [List.takeWhile_cons, hc, hg]

lemma takeWhile_dot (base s : List Char) :
    (base ++ '.' :: s).takeWhile (fun c => c != '.') =
      base.takeWhile (fun c => c != '.') := by
  induction base with
  | nil => simp [List.takeWhile_cons]
  | cons c bs ih =>
    by_cases hc : c = '.'
    · subst hc
      simp [List.takeWhile_cons]
    · simp [List.takeWhile_cons, hc, ih]

lemma word2hex_length (w : Nat) : (word2hex w).length = 8 := by simp [word2hex]

lemma hexDigit_mem (n : Nat) (h : n < 16) : hexDigit n ∈ "0123456789abcdef".toList := by
  interval_cases n <;> decide

lemma word2hex_mem (w : Nat) : ∀ c ∈ word2hex w, c ∈ "0123456789abcdef".toList := by
  intro c hc
  simp only [word2hex, List.mem_map, List.mem_range] at hc
  obtain ⟨i, _, rfl⟩ := hc
  exact hexDigit_mem _ (Nat.mod_lt _ (by norm_num))

lemma sha1hex_length (msg : List Nat) : (sha1hex msg).length = 40 := by
  rcases hsw : sha1words msg with ⟨a, b, c, d, e⟩
  simp [sha1hex, hsw, word2hex]

lemma sha1hex_mem (msg : List Nat) :
    ∀ ch ∈ sha1hex msg, ch ∈ "0123456789abcdef".toList := by
  rcases hsw : sha1words msg with ⟨a, b, c, d, e⟩
  intro ch hch
  simp only [sha1hex, hsw, List.mem_append] at hch
  rcases hch with ((((h | h) | h) | h) | h) <;> exact word2hex_mem _ ch h

lemma resize_handler_hit {Img : Type} (ops : ImageOps Img) (fetch : FetchResult)
    (state : AppState) (name : List Char) (inm : Option (List Char)) (bytes : List Nat)
    (h : cacheGet state.cache (extract_emoji_id name) = some bytes) :
    resize_handler ops fetch state name inm =
      if header_matches inm (make_etag bytes) then
        (⟨304, with_common_headers (make_etag bytes) none, ResponseBody.empty⟩, state)
      else
        (⟨200, with_common_headers (make_etag bytes)
            (some (format_src (extract_emoji_id name))),
          ResponseBody.bytes bytes⟩, state) := by
  simp only [resize_handler, h]

lemma resize_handler_miss_ignores_inm {Img : Type} (ops : ImageOps Img)
    (fetch : FetchResult) (state : AppState) (name : List Char)
    (inm : Option (List Char))
    (h : cacheGet state.cache (extract_emoji_id name) = none) :
    resize_handler ops fetch state name inm = resize_handler ops fetch state name none := by
  simp only [resize_handler, h]

lemma resize_handler_outcomes {Img : Type} (ops : ImageOps Img) (fetch : FetchResult)
    (state : AppState) (name : List Char) (inm : Option (List Char)) :
    (∃ bytes, cacheGet state.cache (extract_emoji_id name) = some bytes ∧
      header_matches inm (make_etag bytes) = true ∧
      resize_handler ops fetch state name inm =
        (⟨304, with_common_headers (make_etag bytes) none, ResponseBody.empty⟩, state)) ∨
    (∃ bytes st2, resize_handler ops fetch state name inm =
        (⟨200, with_common_headers (make_etag bytes)
            (some (format_src (extract_emoji_id name))), ResponseBody.bytes bytes⟩, st2)) ∨
    (∃ code msg, code ≠ 200 ∧ code ≠ 304 ∧
      resize_handler ops fetch state name inm = (⟨code, [], ResponseBody.text msg⟩, state)) := by
  cases hcg : cacheGet state.cache (extract_emoji_id name) with
  | some bytes =>
    rw [resize_handler_hit ops fetch state name inm bytes hcg]
    by_cases hm : header_matches inm (make_etag bytes)
    · left
      exact ⟨bytes, rfl, hm, by rw [if_pos hm]⟩
    · right; left
      exact ⟨bytes, state, by rw [if_neg hm]⟩
  | none =>
    cases fetch with
    | err =>
      right; right
      refine ⟨502, "upstream fetch failed".toList, by omega, by omega, ?_⟩
      simp [resize_handler, hcg]
    | ok resp =>
      by_cases h404 : resp.status = 404
      · right; right
        refine ⟨404, "emoji not found".toList, by omega, by omega, ?_⟩
        simp [resize_handler, hcg, h404]
      · by_cases hsucc : statusIsSuccess resp.status
        · cases hbody : resp.bytesResult with
          | none =>
            right; right
            refine ⟨502, "upstream read failed".toList, by omega, by omega, ?_⟩
            simp [resize_handler, hcg, h404, hsucc, hbody]
          | some body =>
            by_cases hanim : is_animated_webp body
            · right; left
              refine ⟨body, AppState.mk (cacheInsert state.cache (extract_emoji_id name) body), ?_⟩
              simp [resize_handler, hcg, h404, hsucc, hbody, hanim]
            · cases hdec : ops.load_from_memory body with
              | none =>
                right; right
                refine ⟨415, "decode failed".toList, by omega, by omega, ?_⟩
                simp [resize_handler, hcg, h404, hsucc, hbody, hanim, hdec]
              | some img =>
                cases henc : ops.write_to_webp (ops.resize img 160 160 FilterType.Lanczos3) with
                | none =>
                  right; right
                  refine ⟨500, "encode failed".toList, by omega, by omega, ?_⟩
                  simp [resize_handler, hcg, h404, hsucc, hbody, hanim, hdec, henc]
                | some out =>
                  right; left
                  refine ⟨out, AppState.mk (cacheInsert state.cache (extract_emoji_id name) out), ?_⟩
                  simp [resize_handler, hcg, h404, hsucc, hbody, hanim, hdec, henc]
        · right; right
          refine ⟨502, "upstream error".toList, by omega, by omega, ?_⟩
          simp [resize_handler, hcg, h404, hsucc]

/-! ## Claim theorems -/

/-- C2 counterexample: the claim says the identifier is the portion of the
segment before the LAST dot, so for "a.b.c" it would be "a.b"; the code splits
at the FIRST dot and produces "a". -/
theorem C2_counterexample :
    extract_emoji_id "a.b.c".toList = "a".toList ∧
    extract_emoji_id "a.b.c".toList ≠ "a.b".toList := by
  constructor <;> decide

/-- C2 amended: the identifier used as cache key and remote-fetch key is the
portion of the path segment before the FIRST dot (the whole segment when no
dot occurs, since takeWhile then keeps everything); consequently two requests
differing only in a trailing suffix after a dot still resolve to the same
cache entry and the same remote source URL. -/
theorem C2_amended_first_dot :
    (∀ name : List Char, extract_emoji_id name = name.takeWhile (fun c => c != '.')) ∧
    (∀ base s1 s2 : List Char,
      extract_emoji_id (base ++ '.' :: s1) = extract_emoji_id (base ++ '.' :: s2) ∧
      format_src (extract_emoji_id (base ++ '.' :: s1)) =
        format_src (extract_emoji_id (base ++ '.' :: s2)) ∧
      ∀ st : AppState, cacheGet st.cache (extract_emoji_id (base ++ '.' :: s1)) =
        cacheGet st.cache (extract_emoji_id (base ++ '.' :: s2))) := by
  have hext : ∀ name : List Char,
      extract_emoji_id name = name.takeWhile (fun c => c != '.') :=
    fun name => splitList_headD '.' name
  refine ⟨hext, ?_⟩
  intro base s1 s2
  have h : extract_emoji_id (base ++ '.' :: s1) = extract_emoji_id (base ++ '.' :: s2) := by
    rw [hext, hext, takeWhile_dot, takeWhile_dot]
  exact ⟨h, by rw [h], fun st => by rw [h]⟩

/-- C3 counterexample: a well-formed container whose chunk list is a VP8X
chunk with a clear animation flag followed by an ANIM chunk is classified
Static, because the VP8X chunk terminates the scan before the ANIM chunk is
reached; the claim says any container with an ANIM chunk is Animated. -/
theorem C3_counterexample :
    is_animated_webp (webpContainer [vp8xStaticChunk, animChunk]) = false := by
  decide

/-- C3 amended: an ANIM chunk at any chunk position yields Animated provided
no VP8X chunk occurs at an earlier position (the walk checks ANIM at every
position it reaches, but an earlier VP8X chunk is authoritative and stops the
scan before the ANIM chunk is reached). -/
theorem C3_amended_anim_before_vp8x (pre : List Chunk) (c : Chunk) (rest : List Chunk)
    (hpre : ∀ d ∈ pre, wfSkipChunk d) (hc : c.ctype = ANIMbytes) :
    is_animated_webp (webpContainer (pre ++ c :: rest)) = true := by
  obtain ⟨fuel, pos, suffix, heq, hdrop⟩ := container_reaches pre c rest hpre
  rw [heq]
  exact animWalk_at_anim _ fuel pos c suffix hdrop hc

/-- C3 witness: an ANIM chunk after one ordinary (ICCP, odd-sized) chunk is
detected. -/
theorem C3_amended_witness :
    is_animated_webp (webpContainer [Chunk.mk [73, 67, 67, 80] [1, 2, 3], animChunk]) = true :=
  C3_amended_anim_before_vp8x [Chunk.mk [73, 67, 67, 80] [1, 2, 3]] animChunk []
    (by decide) rfl

/-- C4: the format sniffer never reads out of bounds on any input: the
instrumented walk, in which every single byte or slice access is
bounds-checked and an out-of-range access aborts with none, always returns
some result, equal to the sniffer classification (Static being false). -/
theorem C4_sniffer_memory_safe (data : List Nat) :
    is_animated_webpChecked data = some (is_animated_webp data) :=
  is_animated_webpChecked_eq data

/-- C6: when the chunk walk encounters a VP8X chunk with at least one payload
byte available, the result is Animated exactly when bit 0x02 of the flag byte
at payload offset 0 is set; the result does not depend on the remaining
chunks (the VP8X chunk terminates the search). -/
theorem C6_vp8x_authoritative (pre : List Chunk) (c : Chunk) (rest : List Chunk)
    (hpre : ∀ d ∈ pre, wfSkipChunk d) (hc : c.ctype = VP8Xbytes) (hp : c.payload ≠ []) :
    is_animated_webp (webpContainer (pre ++ c :: rest)) =
      (((c.payload.getD 0 0) &&& 2) != 0) := by
  obtain ⟨fuel, pos, suffix, heq, hdrop⟩ := container_reaches pre c rest hpre
  rw [heq]
  exact animWalk_at_vp8x _ fuel pos c suffix hdrop hc hp

/-- C6 witness: a VP8X chunk whose flag byte is 0x02 is classified Animated. -/
theorem C6_witness :
    is_animated_webp (webpContainer [Chunk.mk VP8Xbytes [2, 0, 0, 0, 0, 0, 0, 0, 0, 0]]) = true := by
  have h := C6_vp8x_authoritative [] (Chunk.mk VP8Xbytes [2, 0, 0, 0, 0, 0, 0, 0, 0, 0]) []
    (by decide) rfl (by decide)
  rw [List.nil_append] at h
  rw [h]
  decide

/-- C9: the chunk walk terminates within length / 8 iterations: giving the
loop any fuel of at least length / 8 produces the same classification as the
ample fuel (the full buffer length) used by is_animated_webp, because each
iteration advances the scan position by at least 8 bytes. -/
theorem C9_walk_iterations_bounded (data : List Nat) (fuel : Nat)
    (h : data.length / 8 ≤ fuel) :
    animWalk data fuel 12 = animWalk data data.length 12 :=
  animWalk_fuel_irrel data fuel data.length 12 (by omega) (by omega)

/-- C9 witness at a concrete 21-byte buffer: fuel 3 suffices. -/
theorem C9_witness :
    animDemoBytes.length / 8 ≤ 3 ∧
    animWalk animDemoBytes 3 12 = animWalk animDemoBytes animDemoBytes.length 12 :=
  ⟨by decide, C9_walk_iterations_bounded animDemoBytes 3 (by decide)⟩

lemma headerLookup_common_etag (e : List Char) (src : Option (List Char)) :
    headerLookup "etag".toList (with_common_headers e src) = some e := rfl

set_option maxRecDepth 100000 in
/-- C1 counterexample: on a cache miss whose fetched body is animated, the
handler serves status 200 with the full body even though the inbound
If-None-Match list contains exactly the freshness token derived from the
output bytes; the claim says this request must get 304 NotModified. -/
theorem C1_counterexample :
    header_matches (some (make_etag animDemoBytes)) (make_etag animDemoBytes) = true ∧
    (resize_handler unitOps (FetchResult.ok (UpstreamResponse.mk 200 (some animDemoBytes)))
        (AppState.mk []) "123.webp".toList (some (make_etag animDemoBytes))).1.status = 200 ∧
    (resize_handler unitOps (FetchResult.ok (UpstreamResponse.mk 200 (some animDemoBytes)))
        (AppState.mk []) "123.webp".toList (some (make_etag animDemoBytes))).1.body =
      ResponseBody.bytes animDemoBytes := by
  refine ⟨?_, ?_, ?_⟩ <;> decide

/-- C1 amended: the validator comparison happens only on the cache-hit path:
there, if any listed validator equals the derived token the response is 304
with no body, else 200 with the cached body; on a cache miss the response is
computed without consulting If-None-Match at all (the full body is served on
the success paths regardless of the header). -/
theorem C1_amended_validator_on_hit {Img : Type} (ops : ImageOps Img)
    (fetch : FetchResult) (state : AppState) (name : List Char)
    (inm : Option (List Char)) :
    (∀ bytes, cacheGet state.cache (extract_emoji_id name) = some bytes →
      (header_matches inm (make_etag bytes) = true →
        resize_handler ops fetch state name inm =
          (⟨304, with_common_headers (make_etag bytes) none, ResponseBody.empty⟩, state)) ∧
      (header_matches inm (make_etag bytes) = false →
        resize_handler ops fetch state name inm =
          (⟨200, with_common_headers (make_etag bytes)
              (some (format_src (extract_emoji_id name))),
            ResponseBody.bytes bytes⟩, state))) ∧
    (cacheGet state.cache (extract_emoji_id name) = none →
      resize_handler ops fetch state name inm = resize_handler ops fetch state name none) := by
  constructor
  · intro bytes hcg
    rw [resize_handler_hit ops fetch state name inm bytes hcg]
    constructor
    · intro hm
      rw [if_pos hm]
    · intro hm
      rw [if_neg (by simp [hm])]
  · intro hcg
    exact resize_handler_miss_ignores_inm ops fetch state name inm hcg

set_option maxRecDepth 100000 in
/-- C1 witness: a cache hit with a matching validator yields 304 and no body. -/
theorem C1_amended_witness :
    resize_handler unitOps FetchResult.err (AppState.mk [("7".toList, animDemoBytes)])
        "7.gif".toList (some (make_etag animDemoBytes)) =
      (⟨304, with_common_headers (make_etag animDemoBytes) none, ResponseBody.empty⟩,
        AppState.mk [("7".toList, animDemoBytes)]) := by
  have h := (C1_amended_validator_on_hit unitOps FetchResult.err
    (AppState.mk [("7".toList, animDemoBytes)]) "7.gif".toList
    (some (make_etag animDemoBytes))).1 animDemoBytes (by decide)
  exact h.1 (by decide)

/-- C5: every error outcome terminates the request with the mapped status
(fetch transport error 502, origin 404 mapped to 404, other non-success
origin status 502, body-read failure 502, decode failure 415, encode failure
500) and leaves the application state, hence the cache, unchanged. -/
theorem C5_errors_terminal_no_cache {Img : Type} (ops : ImageOps Img)
    (fetch : FetchResult) (state : AppState) (name : List Char)
    (inm : Option (List Char))
    (hmiss : cacheGet state.cache (extract_emoji_id name) = none) :
    (fetch = FetchResult.err →
      (resize_handler ops fetch state name inm).1.status = 502 ∧
      (resize_handler ops fetch state name inm).2 = state) ∧
    (∀ resp, fetch = FetchResult.ok resp →
      (resp.status = 404 →
        (resize_handler ops fetch state name inm).1.status = 404 ∧
        (resize_handler ops fetch state name inm).2 = state) ∧
      (resp.status ≠ 404 → statusIsSuccess resp.status = false →
        (resize_handler ops fetch state name inm).1.status = 502 ∧
        (resize_handler ops fetch state name inm).2 = state) ∧
      (resp.status ≠ 404 → statusIsSuccess resp.status = true →
        resp.bytesResult = none →
        (resize_handler ops fetch state name inm).1.status = 502 ∧
        (resize_handler ops fetch state name inm).2 = state) ∧
      (∀ body, resp.status ≠ 404 → statusIsSuccess resp.status = true →
        resp.bytesResult = some body → is_animated_webp body = false →
        (ops.load_from_memory body = none →
          (resize_handler ops fetch state name inm).1.status = 415 ∧
          (resize_handler ops fetch state name inm).2 = state) ∧
        (∀ img, ops.load_from_memory body = some img →
          ops.write_to_webp (ops.resize img 160 160 FilterType.Lanczos3) = none →
          (resize_handler ops fetch state name inm).1.status = 500 ∧
          (resize_handler ops fetch state name inm).2 = state))) := by
  refine ⟨?_, ?_⟩
  · rintro rfl
    simp [resize_handler, hmiss]
  · rintro resp rfl
    refine ⟨?_, ?_, ?_, ?_⟩
    · intro h404
      simp [resize_handler, hmiss, h404]
    · intro h404 hfail
      simp [resize_handler, hmiss, h404, hfail]
    · intro h404 hsucc hbody
      simp [resize_handler, hmiss, h404, hsucc, hbody]
    · intro body h404 hsucc hbody hanim
      refine ⟨?_, ?_⟩
      · intro hdec
        simp [resize_handler, hmiss, h404, hsucc, hbody, hanim, hdec]
      · intro img himg henc
        simp [resize_handler, hmiss, h404, hsucc, hbody, hanim, himg, henc]

/-- C5 witness: a transport error terminates with 502 and the cache untouched. -/
theorem C5_witness :
    (resize_handler unitOps FetchResult.err (AppState.mk []) "9".toList none).1.status = 502 ∧
    (resize_handler unitOps FetchResult.err (AppState.mk []) "9".toList none).2 = AppState.mk [] :=
  (C5_errors_terminal_no_cache unitOps FetchResult.err (AppState.mk []) "9".toList none rfl).1 rfl

/-- C7: the freshness token derivation is a pure deterministic function of
the output bytes (equal byte lists give equal tokens); the token has the weak
validator form W/"hex" where hex is the 40-character lowercase hexadecimal
SHA-1 digest; and both the cache-hit and the cache-miss paths of the handler
derive the response validator by this same function make_etag applied to the
served output bytes (on 200 the body bytes, on 304 the cached bytes). -/
theorem C7_etag_pure_consistent :
    (∀ b1 b2 : List Nat, b1 = b2 → make_etag b1 = make_etag b2) ∧
    (∀ b : List Nat, make_etag b = 'W' :: '/' :: '"' :: (sha1hex b ++ ['"']) ∧
      (sha1hex b).length = 40 ∧ ∀ c ∈ sha1hex b, c ∈ "0123456789abcdef".toList) ∧
    (∀ (Img : Type) (ops : ImageOps Img) (fetch : FetchResult) (state : AppState)
      (name : List Char) (inm : Option (List Char)) (b : List Nat),
      (resize_handler ops fetch state name inm).1.body = ResponseBody.bytes b →
      headerLookup "etag".toList (resize_handler ops fetch state name inm).1.headers =
        some (make_etag b)) ∧
    (∀ (Img : Type) (ops : ImageOps Img) (fetch : FetchResult) (state : AppState)
      (name : List Char) (inm : Option (List Char)) (b : List Nat),
      cacheGet state.cache (extract_emoji_id name) = some b →
      (resize_handler ops fetch state name inm).1.status = 304 →
      headerLookup "etag".toList (resize_handler ops fetch state name inm).1.headers =
        some (make_etag b)) := by
  refine ⟨fun b1 b2 h => by rw [h], ?_, ?_, ?_⟩
  · intro b
    exact ⟨by simp [make_etag], sha1hex_length b, sha1hex_mem b⟩
  · intro Img ops fetch state name inm b hbody
    rcases resize_handler_outcomes ops fetch state name inm with
      ⟨bytes, hcg, hm, heq⟩ | ⟨bytes, st2, heq⟩ | ⟨code, msg, h200, h304, heq⟩
    · rw [heq] at hbody
      simp at hbody
    · rw [heq] at hbody ⊢
      simp only [ResponseBody.bytes.injEq] at hbody
      subst hbody
      exact headerLookup_common_etag _ _
    · rw [heq] at hbody
      simp at hbody
  · intro Img ops fetch state name inm b hcg h304
    rcases resize_handler_outcomes ops fetch state name inm with
      ⟨bytes, hcg2, hm, heq⟩ | ⟨bytes, st2, heq⟩ | ⟨code, msg, hc200, hc304, heq⟩
    · rw [hcg] at hcg2
      simp only [Option.some.injEq] at hcg2
      subst hcg2
      rw [heq]
      exact headerLookup_common_etag _ _
    · rw [heq] at h304
      simp at h304
    · rw [heq] at h304
      simp at h304
      exact absurd h304 hc304

set_option maxRecDepth 100000 in
/-- C7 witness: on a concrete cache hit the etag response header equals
make_etag of the served bytes. -/
theorem C7_witness :
    headerLookup "etag".toList (resize_handler unitOps FetchResult.err
        (AppState.mk [("7".toList, animDemoBytes)]) "7".toList none).1.headers =
      some (make_etag animDemoBytes) :=
  C7_etag_pure_consistent.2.2.1 Unit unitOps FetchResult.err
    (AppState.mk [("7".toList, animDemoBytes)]) "7".toList none animDemoBytes (by decide)

/-- C8: every 200 response carries exactly the four standard headers with
content type image/webp, the one-day public cache-control directive, the
derived token as etag, and the constructed remote URL as x-source-url; every
304 response carries the same headers with the placeholder "-" as
x-source-url and has no body; and format_src is exactly the Discord CDN URL
template. -/
theorem C8_standard_headers {Img : Type} (ops : ImageOps Img) (fetch : FetchResult)
    (state : AppState) (name : List Char) (inm : Option (List Char)) :
    ((resize_handler ops fetch state name inm).1.status = 200 →
      ∃ b, (resize_handler ops fetch state name inm).1.body = ResponseBody.bytes b ∧
        (resize_handler ops fetch state name inm).1.headers =
          [("content-type".toList, "image/webp".toList),
           ("cache-control".toList,
             "public, max-age=86400, stale-while-revalidate=600".toList),
           ("etag".toList, make_etag b),
           ("x-source-url".toList, format_src (extract_emoji_id name))]) ∧
    ((resize_handler ops fetch state name inm).1.status = 304 →
      ∃ b, cacheGet state.cache (extract_emoji_id name) = some b ∧
        (resize_handler ops fetch state name inm).1.body = ResponseBody.empty ∧
        (resize_handler ops fetch state name inm).1.headers =
          [("content-type".toList, "image/webp".toList),
           ("cache-control".toList,
             "public, max-age=86400, stale-while-revalidate=600".toList),
           ("etag".toList, make_etag b),
           ("x-source-url".toList, "-".toList)]) ∧
    (∀ id2 : List Char, format_src id2 =
      "https://cdn.discordapp.com/emojis/".toList ++ id2 ++
        "?size=160&animated=true".toList) := by
  refine ⟨?_, ?_, fun id2 => rfl⟩
  · intro h200
    rcases resize_handler_outcomes ops fetch state name inm with
      ⟨bytes, hcg, hm, heq⟩ | ⟨bytes, st2, heq⟩ | ⟨code, msg, hc200, hc304, heq⟩
    · rw [heq] at h200
      simp at h200
    · rw [heq]
      exact ⟨bytes, rfl, by simp [with_common_headers]⟩
    · rw [heq] at h200
      simp at h200
      exact absurd h200 hc200
  · intro h304
    rcases resize_handler_outcomes ops fetch state name inm with
      ⟨bytes, hcg, hm, heq⟩ | ⟨bytes, st2, heq⟩ | ⟨code, msg, hc200, hc304, heq⟩
    · rw [heq]
      exact ⟨bytes, hcg, rfl, by simp [with_common_headers]⟩
    · rw [heq] at h304
      simp at h304
    · rw [heq] at h304
      simp at h304
      exact absurd h304 hc304

set_option maxRecDepth 100000 in
/-- C8 witness: concrete cache-hit 200 response with the four headers. -/
theorem C8_witness :
    ∃ b, (resize_handler unitOps FetchResult.err
        (AppState.mk [("8".toList, animDemoBytes)]) "8".toList none).1.body =
          ResponseBody.bytes b ∧
      (resize_handler unitOps FetchResult.err
        (AppState.mk [("8".toList, animDemoBytes)]) "8".toList none).1.headers =
        [("content-type".toList, "image/webp".toList),
         ("cache-control".toList,
           "public, max-age=86400, stale-while-revalidate=600".toList),
         ("etag".toList, make_etag b),
         ("x-source-url".toList, format_src (extract_emoji_id "8".toList))] :=
  (C8_standard_headers unitOps FetchResult.err
    (AppState.mk [("8".toList, animDemoBytes)]) "8".toList none).1 (by decide)

/-- C10: an absent or unreadable If-None-Match header never matches; a header
whose comma-separated entries, after trimming, all differ from the derived
token never matches; the wildcard "*" is compared literally and can never
equal a derived token (which always starts with W), so it never produces a
304; and on a cache hit without a validator match the full cached body is
served with status 200. -/
theorem C10_no_match_serves_body :
    (∀ v : List Char, header_matches none v = false) ∧
    (∀ s v : List Char, (∀ t ∈ splitList ',' s, trimChars t ≠ v) →
      header_matches (some s) v = false) ∧
    (∀ b : List Nat, header_matches (some "*".toList) (make_etag b) = false) ∧
    (∀ (Img : Type) (ops : ImageOps Img) (fetch : FetchResult) (state : AppState)
      (name : List Char) (inm : Option (List Char)) (bytes : List Nat),
      cacheGet state.cache (extract_emoji_id name) = some bytes →
      header_matches inm (make_etag bytes) = false →
      (resize_handler ops fetch state name inm).1.status = 200 ∧
      (resize_handler ops fetch state name inm).1.body = ResponseBody.bytes bytes) := by
  refine ⟨fun v => rfl, ?_, ?_, ?_⟩
  · intro s v h
    rw [header_matches, List.any_eq_false]
    intro t ht
    simpa using h t ht
  · intro b
    have hform : make_etag b = 'W' :: '/' :: '"' :: (sha1hex b ++ ['"']) := by
      simp [make_etag]
    rw [header_matches]
    have hsplit : splitList ',' "*".toList = ["*".toList] := by decide
    rw [hsplit]
    simp only [List.any_cons, List.any_nil, Bool.or_false]
    have htrim : trimChars "*".toList = "*".toList := by decide
    rw [htrim]
    refine beq_eq_false_iff_ne.mpr ?_
    rw [hform]
    intro hcontra
    have h1 : "*".toList = ['*'] := by decide
    rw [h1] at hcontra
    injection hcontra with h2 _
    exact absurd h2 (by decide)
  · intro Img ops fetch state name inm bytes hcg hm
    rw [resize_handler_hit ops fetch state name inm bytes hcg, if_neg (by simp [hm])]
    exact ⟨rfl, rfl⟩

/-- C10 witness: concrete cache hit with absent If-None-Match serves the body. -/
theorem C10_witness :
    (resize_handler unitOps FetchResult.err
      (AppState.mk [("6".toList, animDemoBytes)]) "6".toList none).1.status = 200 ∧
    (resize_handler unitOps FetchResult.err
      (AppState.mk [("6".toList, animDemoBytes)]) "6".toList none).1.body =
        ResponseBody.bytes animDemoBytes :=
  C10_no_match_serves_body.2.2.2 Unit unitOps FetchResult.err
    (AppState.mk [("6".toList, animDemoBytes)]) "6".toList none animDemoBytes
    (by decide) rfl
